import Mathlib

/-!
Shallow embedding of the Baby-Data application (src/app.py) and proofs of
its specified properties.

Modelling conventions:
* A calendar date is an integer day number (days since an arbitrary epoch);
  `daysFromCivil` encodes a Gregorian (year, month, day) as such a number,
  so that concrete dates from the spec can be written down.
* A `datetime` is the integer number of seconds `day * 86400 + h*3600 + m*60 + s`
  (`dayTime`), mirroring `datetime.combine(day, time(h, m, s))`.  The app
  stores timestamps as fixed-format ISO-8601 strings, on which lexicographic
  order and equality coincide with the order and equality of the instants
  they denote, so the embedding uses the integer instants directly.
* The `entries` table is a list of rows; SQL statements become the
  corresponding list transformations (DELETE = filter, INSERT .. ON CONFLICT
  DO UPDATE = map-or-append, ORDER BY = insertionSort).
* A pandas `DataFrame` is a list of column names together with a list of rows.
-/

namespace BabyData

/-- An instant: `datetime.combine(day, time(h, m, s))` as seconds. -/
def dayTime (d h m s : Int) : Int := d * 86400 + h * 3600 + m * 60 + s

/-- Day number of a proleptic Gregorian date (days since 1970-01-01),
used only to encode concrete dates appearing in the spec. -/
def daysFromCivil (y m d : Int) : Int :=
  let y2 := if m ≤ 2 then y - 1 else y
  let era := y2.fdiv 400
  let yoe := y2 - era * 400
  let mp := (m + 9).emod 12
  let doy := (153 * mp + 2).fdiv 5 + d - 1
  let doe := yoe * 365 + yoe.fdiv 4 - yoe.fdiv 100 + doy
  era * 146097 + doe - 719468

/-- One row of the `entries` table: flags for one baby at one timestamp. -/
structure Entry where
  baby_id : Int
  ts : Int
  milk : Bool
  pee : Bool
  poop : Bool
deriving DecidableEq, Repr

/-- The `entries` table. -/
abbrev EntriesDB := List Entry

/-- The UNIQUE (baby_id, ts) constraint of the `entries` table. -/
def EntriesWF (db : EntriesDB) : Prop :=
  db.Pairwise (fun r1 r2 => ¬(r1.baby_id = r2.baby_id ∧ r1.ts = r2.ts))

/-- Source `timeframe_to_range` (src/app.py:168-190), with `today`
(`datetime.now(LOCAL_TZ).date()`) as an explicit parameter and the custom
range as an optional list of dates (the code checks `len(custom_range) != 2`). -/
def timeframe_to_range (option : String) (custom_range : Option (List Int))
    (today : Int) : Int × Int :=
  let p : Int × Int :=
    if option = "Today" then (today, today)
    else if option = "Last 3 days" then (today - 2, today)
    else if option = "Last 7 days" then (today - 6, today)
    else if option = "Last 30 days" then (today - 29, today)
    else
      match custom_range with
      | some [a, b] => (a, b)
      | _ => (today, today)
  (dayTime p.1 0 0 0, dayTime p.2 23 59 59)

/-- Source `upsert_entry` (src/app.py:118-137):
`INSERT .. ON CONFLICT(baby_id, ts) DO UPDATE SET milk, pee, poop`. -/
def upsert_entry (db : EntriesDB) (b t : Int) (milk pee poop : Bool) : EntriesDB :=
  if db.any (fun r => r.baby_id == b && r.ts == t) then
    db.map (fun r =>
      if r.baby_id == b && r.ts == t then
        { r with milk := milk, pee := pee, poop := poop }
      else r)
  else
    db ++ [⟨b, t, milk, pee, poop⟩]

/-- Source `delete_entry` (src/app.py:71-74). -/
def delete_entry (db : EntriesDB) (b t : Int) : EntriesDB × Nat :=
  (db.filter (fun r => !(r.baby_id == b && r.ts == t)),
   (db.filter (fun r => r.baby_id == b && r.ts == t)).length)

/-- Source `delete_day` (src/app.py:77-84): `DELETE .. WHERE baby_id = ? AND
ts BETWEEN day 00:00:00 AND day 23:59:59`, returning the rowcount. -/
def delete_day (db : EntriesDB) (b day : Int) : EntriesDB × Nat :=
  (db.filter (fun r => !(r.baby_id == b && decide (dayTime day 0 0 0 ≤ r.ts)
      && decide (r.ts ≤ dayTime day 23 59 59))),
   (db.filter (fun r => r.baby_id == b && decide (dayTime day 0 0 0 ≤ r.ts)
      && decide (r.ts ≤ dayTime day 23 59 59))).length)

/-- Timestamp order on entry rows (`ORDER BY ts ASC`). -/
def entryLe (r1 r2 : Entry) : Prop := r1.ts ≤ r2.ts

instance : DecidableRel entryLe := fun r1 r2 => Int.decLe r1.ts r2.ts

instance : IsTotal Entry entryLe := ⟨fun r1 r2 => Int.le_total r1.ts r2.ts⟩

instance : IsTrans Entry entryLe := ⟨fun _ _ _ h1 h2 => le_trans h1 h2⟩

/-- Two-digit zero padding, for the `%I:%M` part of the `hour` column. -/
def pad2 (n : Nat) : String := if n < 10 then "0" ++ toString n else toString n

/-- The `strftime("%I:%M %p")` rendering of a second-of-day. -/
def formatHour12 (secOfDay : Int) : String :=
  let s := secOfDay.toNat
  let h := s / 3600 % 24
  let m := s % 3600 / 60
  let h12 := if h % 12 = 0 then 12 else h % 12
  let ap := if h < 12 then "AM" else "PM"
  pad2 h12 ++ ":" ++ pad2 m ++ " " ++ ap

/-- One row of the DataFrame returned by `fetch_entries`, including the
derived `date` and `hour` columns. -/
structure FetchedRow where
  ts : Int
  milk : Bool
  pee : Bool
  poop : Bool
  date : Int
  hour : String
deriving DecidableEq, Repr

/-- A pandas DataFrame: its column names and its rows. -/
structure DataFrame where
  cols : List String
  rows : List FetchedRow
deriving DecidableEq, Repr

/-- The derived-columns row built at src/app.py:159-164: `df["date"] =
df["ts"].dt.date`, `df["hour"] = df["ts"].dt.strftime("%I:%M %p")`. -/
def deriveRow (r : Entry) : FetchedRow :=
  ⟨r.ts, r.milk, r.pee, r.poop, r.ts.fdiv 86400, formatHour12 (r.ts.emod 86400)⟩

/-- Source `fetch_entries` (src/app.py:140-165): select the baby's rows
ordered by timestamp, return a bare four-column frame when there are none,
otherwise post-filter `start <= ts <= end` in Python and add the derived
`date` and `hour` columns. -/
def fetch_entries (db : EntriesDB) (b : Int) (start stop : Int) : DataFrame :=
  let rows := List.insertionSort entryLe (db.filter (fun r => r.baby_id == b))
  if rows.isEmpty then
    ⟨["ts", "milk", "pee", "poop"], []⟩
  else
    let rows2 := rows.filter (fun r => decide (start ≤ r.ts) && decide (r.ts ≤ stop))
    ⟨["ts", "milk", "pee", "poop", "date", "hour"], rows2.map deriveRow⟩

/-- The `babies` table together with the `BIGSERIAL` id sequence. -/
structure BabyDB where
  babies : List (Int × String)
  nextId : Int
deriving DecidableEq, Repr

/-- Python `str.strip()`: drop leading and trailing whitespace. -/
def strip (s : String) : String :=
  String.mk
    (((s.data.dropWhile Char.isWhitespace).reverse.dropWhile
      Char.isWhitespace).reverse)

/-- Source `get_or_create_baby` (src/app.py:106-115): trim the name, raise
on empty, return the id of an exact-match row, otherwise insert and return
the fresh id. -/
def get_or_create_baby (st : BabyDB) (name : String) : Except String Int × BabyDB :=
  let n := strip name
  if n = "" then (Except.error ("Baby name cannot be empty"), st)
  else
    match st.babies.find? (fun r => r.2 == n) with
    | some r => (Except.ok r.1, st)
    | none => (Except.ok st.nextId, ⟨st.babies ++ [(st.nextId, n)], st.nextId + 1⟩)

/-- One row of the `weights` table. -/
structure WeightRow where
  baby_id : Int
  date : Int
  weight : Rat
deriving DecidableEq, Repr

/-- Date order on weight rows (`ORDER BY date ASC`). -/
def weightLe (w1 w2 : WeightRow) : Prop := w1.date ≤ w2.date

instance : DecidableRel weightLe := fun w1 w2 => Int.decLe w1.date w2.date

instance : IsTotal WeightRow weightLe := ⟨fun w1 w2 => Int.le_total w1.date w2.date⟩

instance : IsTrans WeightRow weightLe := ⟨fun _ _ _ h1 h2 => le_trans h1 h2⟩

/-- The whole database (schema of `init_db`, src/app.py:32-68). -/
structure DB where
  babies : List (Int × String)
  entries : EntriesDB
  weights : List WeightRow
deriving DecidableEq, Repr

/-- Source `delete_baby` (src/app.py:96-98) plus the schema's
`ON DELETE CASCADE` actions on `entries` and `weights`; returns the
rowcount of deleted `babies` rows. -/
def delete_baby (db : DB) (b : Int) : DB × Nat :=
  (⟨db.babies.filter (fun r => !(r.1 == b)),
    db.entries.filter (fun r => !(r.baby_id == b)),
    db.weights.filter (fun w => !(w.baby_id == b))⟩,
   (db.babies.filter (fun r => r.1 == b)).length)

/-- The weight series query (src/app.py:475-478):
`SELECT date, weight FROM weights WHERE baby_id = ? ORDER BY date ASC`. -/
def weight_series (db : DB) (b : Int) : List (Int × Rat) :=
  (List.insertionSort weightLe (db.weights.filter (fun w => w.baby_id == b))).map
    (fun w => (w.date, w.weight))

/-- `MAX(ts)` over a list of rows: `none` on the empty list. -/
def maxTs : List Entry → Option Int
  | [] => none
  | r :: rest =>
    match maxTs rest with
    | none => some r.ts
    | some t => some (max r.ts t)

/-- The latest-per-event query (src/app.py:408-419): `MAX(ts) FILTER
(WHERE milk = 1)`, and likewise for pee and poop, over one baby's rows. -/
def latest_timestamp_per_event (db : EntriesDB) (b : Int) :
    Option Int × Option Int × Option Int :=
  (maxTs (db.filter (fun r => r.baby_id == b && r.milk)),
   maxTs (db.filter (fun r => r.baby_id == b && r.pee)),
   maxTs (db.filter (fun r => r.baby_id == b && r.poop)))

/-- The three event kinds of the melt's `value_vars`. -/
inductive EventKind
  | milk
  | pee
  | poop
deriving DecidableEq, Repr

/-- The flag column selected by an event kind. -/
def flagOf (k : EventKind) (r : Entry) : Bool :=
  match k with
  | .milk => r.milk
  | .pee => r.pee
  | .poop => r.poop

/-- One row of `df_long`. -/
structure LongRow where
  ts : Int
  event : EventKind
  value : Bool
deriving DecidableEq, Repr

/-- The melt at src/app.py:199-200: one long row per (entry, event kind),
in value_vars block order. -/
def meltLong (df : List Entry) : List LongRow :=
  df.map (fun r => ⟨r.ts, .milk, r.milk⟩)
    ++ df.map (fun r => ⟨r.ts, .pee, r.pee⟩)
    ++ df.map (fun r => ⟨r.ts, .poop, r.poop⟩)

/-- Consecutive differences, `Series.diff()` (without the leading NaT). -/
def diffs : List Int → List Int
  | a :: b :: rest => (b - a) :: diffs (b :: rest)
  | _ => []

/-- The average-interval computation of `render_charts` (src/app.py:244-252):
melt, keep `value == 1`, take the given event's group, sort its timestamps,
and return the mean of consecutive differences when at least two rows
qualify, `none` (rendered "N/A") otherwise. -/
def average_interval (df : List Entry) (k : EventKind) : Option Rat :=
  let times : List Int :=
    List.insertionSort (· ≤ ·)
      (((meltLong df).filter (fun lr => lr.value && decide (lr.event = k))).map
        (fun lr => lr.ts))
  if 2 ≤ times.length then
    some (((diffs times).map (fun d => (d : Rat))).sum / ((diffs times).length : Rat))
  else none

/-- The inclusive range condition of the spec: the baby's rows whose parsed
timestamp satisfies start ≤ ts ≤ end. -/
def inRange (b s e : Int) (r : Entry) : Bool :=
  decide (r.baby_id = b ∧ s ≤ r.ts ∧ r.ts ≤ e)

/-- The rows returned by `fetch_entries` are a permutation of the derived
rows of the stored entries selected by `inRange`. -/
theorem fetch_rows_perm (db : EntriesDB) (b s e : Int) :
    (fetch_entries db b s e).rows.Perm ((db.filter (inRange b s e)).map deriveRow) := by
  have hpt : ∀ r : Entry,
      ((decide (s ≤ r.ts) && decide (r.ts ≤ e)) && r.baby_id == b)
        = inRange b s e r := by
    intro r
    by_cases h1 : r.baby_id = b <;> by_cases h2 : s ≤ r.ts <;>
      by_cases h3 : r.ts ≤ e <;> simp [inRange, h1, h2, h3]
  have hcomb : (db.filter (fun r => r.baby_id == b)).filter
        (fun r => decide (s ≤ r.ts) && decide (r.ts ≤ e))
      = db.filter (inRange b s e) := by
    rw [List.filter_filter]
    exact List.filter_congr fun r _ => hpt r
  simp only [fetch_entries]
  by_cases hemp :
      (List.insertionSort entryLe (db.filter (fun r => r.baby_id == b))).isEmpty
  · rw [if_pos hemp]
    have h0 : db.filter (fun r => r.baby_id == b) = [] := by
      rw [← List.isEmpty_iff,
        ← (List.perm_insertionSort entryLe (db.filter (fun r => r.baby_id == b))).isEmpty_eq]
      exact hemp
    rw [← hcomb, h0]
    exact List.Perm.refl _
  · rw [if_neg hemp]
    refine List.Perm.map deriveRow ?_
    rw [← hcomb]
    exact (List.perm_insertionSort entryLe _).filter _

/-- C3: the range fetch returns exactly the stored rows of the baby whose
timestamp ts satisfies start ≤ ts ≤ end (inclusive both ends, decided on
parsed timestamps), ordered ascending by timestamp. -/
theorem fetch_entries_range_spec (db : EntriesDB) (b s e : Int) :
    (fetch_entries db b s e).rows.Perm ((db.filter (inRange b s e)).map deriveRow) ∧
    (fetch_entries db b s e).rows.Pairwise (fun r1 r2 => r1.ts ≤ r2.ts) ∧
    (∀ fr, fr ∈ (fetch_entries db b s e).rows ↔
      ∃ r, r ∈ db ∧ (r.baby_id = b ∧ s ≤ r.ts ∧ r.ts ≤ e) ∧ deriveRow r = fr) := by
  refine ⟨fetch_rows_perm db b s e, ?_, ?_⟩
  · simp only [fetch_entries]
    by_cases hemp :
        (List.insertionSort entryLe (db.filter (fun r => r.baby_id == b))).isEmpty
    · rw [if_pos hemp]
      exact List.Pairwise.nil
    · rw [if_neg hemp]
      refine List.pairwise_map.mpr ?_
      exact ((List.sorted_insertionSort entryLe _).filter _)
  · intro fr
    rw [(fetch_rows_perm db b s e).mem_iff]
    simp only [List.mem_map, List.mem_filter, inRange, decide_eq_true_eq]
    tauto

/-- C1: the timeframe resolver maps each named option to the inclusive date
range of the spec table (Today → (today, today); Last 3 days → (today-2,
today); Last 7 days → (today-6, today); Last 30 days → (today-29, today);
Custom → the given pair, both ends defaulting to today when the pair is
absent or not of length 2), with start_instant at 00:00:00 and end_instant
at 23:59:59; in particular today = 2024-03-10 with "Last 7 days" yields
(2024-03-04T00:00:00, 2024-03-10T23:59:59). -/
theorem timeframe_to_range_spec (today : Int) (cr : Option (List Int)) :
    timeframe_to_range "Today" cr today
      = (dayTime today 0 0 0, dayTime today 23 59 59) ∧
    timeframe_to_range "Last 3 days" cr today
      = (dayTime (today - 2) 0 0 0, dayTime today 23 59 59) ∧
    timeframe_to_range "Last 7 days" cr today
      = (dayTime (today - 6) 0 0 0, dayTime today 23 59 59) ∧
    timeframe_to_range "Last 30 days" cr today
      = (dayTime (today - 29) 0 0 0, dayTime today 23 59 59) ∧
    (∀ a b : Int, timeframe_to_range "Custom" (some [a, b]) today
      = (dayTime a 0 0 0, dayTime b 23 59 59)) ∧
    timeframe_to_range "Custom" none today
      = (dayTime today 0 0 0, dayTime today 23 59 59) ∧
    (∀ l : List Int, l.length ≠ 2 → timeframe_to_range "Custom" (some l) today
      = (dayTime today 0 0 0, dayTime today 23 59 59)) ∧
    timeframe_to_range "Last 7 days" none (daysFromCivil 2024 3 10)
      = (dayTime (daysFromCivil 2024 3 4) 0 0 0,
         dayTime (daysFromCivil 2024 3 10) 23 59 59) := by
  refine ⟨rfl, rfl, rfl, rfl, fun a b => rfl, rfl, ?_, by decide⟩
  intro l hl
  match l with
  | [] => rfl
  | [_] => rfl
  | [_, _] => exact absurd rfl hl
  | _ :: _ :: _ :: _ => rfl

/-- Witness for C1 at concrete inputs, including a custom range that is not
of length 2. -/
theorem timeframe_to_range_spec_witness :
    timeframe_to_range "Custom" (some [daysFromCivil 2024 1 5])
        (daysFromCivil 2024 3 10)
      = (dayTime (daysFromCivil 2024 3 10) 0 0 0,
         dayTime (daysFromCivil 2024 3 10) 23 59 59) :=
  (timeframe_to_range_spec (daysFromCivil 2024 3 10)
      (some [daysFromCivil 2024 1 5])).2.2.2.2.2.2.1
    [daysFromCivil 2024 1 5] (by decide)

/-- After an upsert a row with the upserted key exists. -/
theorem upsert_any_key (db : EntriesDB) (b t : Int) (m p q : Bool) :
    (upsert_entry db b t m p q).any (fun r => r.baby_id == b && r.ts == t) = true := by
  rw [upsert_entry]
  by_cases hany : db.any (fun r => r.baby_id == b && r.ts == t) = true
  · rw [if_pos hany]
    rw [List.any_eq_true] at hany ⊢
    obtain ⟨r, hr, hkey⟩ := hany
    refine ⟨if r.baby_id == b && r.ts == t then
        { r with milk := m, pee := p, poop := q } else r,
      List.mem_map_of_mem _ hr, ?_⟩
    rw [if_pos hkey]
    simpa using (by simpa using hkey : r.baby_id = b ∧ r.ts = t)
  · rw [if_neg hany]
    rw [List.any_eq_true]
    exact ⟨⟨b, t, m, p, q⟩, by simp, by simp⟩

/-- On a table satisfying the uniqueness constraint, the rows with the
upserted key after an upsert are exactly the single upserted row. -/
theorem upsert_filter_key (db : EntriesDB) (b t : Int) (m p q : Bool)
    (hwf : EntriesWF db) :
    (upsert_entry db b t m p q).filter (fun r => r.baby_id == b && r.ts == t)
      = [⟨b, t, m, p, q⟩] := by
  rw [upsert_entry]
  by_cases hany : db.any (fun r => r.baby_id == b && r.ts == t) = true
  · rw [if_pos hany]
    induction db with
    | nil => simp at hany
    | cons r rest ih =>
      rw [EntriesWF, List.pairwise_cons] at hwf
      by_cases hk : (r.baby_id == b && r.ts == t) = true
      · have hrk : r.baby_id = b ∧ r.ts = t := by simpa using hk
        have hrest : ∀ r2 ∈ rest, (r2.baby_id == b && r2.ts == t) = false := by
          intro r2 hr2
          have hne := hwf.1 r2 hr2
          rw [Bool.eq_false_iff]
          intro hk2
          have hk2' : r2.baby_id = b ∧ r2.ts = t := by simpa using hk2
          exact hne ⟨hrk.1.trans hk2'.1.symm, hrk.2.trans hk2'.2.symm⟩
        simp only [List.map_cons, List.filter_cons, if_pos hk]
        have hnil : (rest.map (fun r2 => if r2.baby_id == b && r2.ts == t then
            { r2 with milk := m, pee := p, poop := q } else r2)).filter
            (fun r2 => r2.baby_id == b && r2.ts == t) = [] := by
          rw [List.filter_eq_nil_iff]
          intro r2 hr2
          rw [List.mem_map] at hr2
          obtain ⟨r3, hr3, hr3e⟩ := hr2
          rw [if_neg (by simp [hrest r3 hr3])] at hr3e
          subst hr3e
          simp [hrest r3 hr3]
        rw [hnil]
        congr 1
        cases r
        simp_all
      · have hany2 : rest.any (fun r2 => r2.baby_id == b && r2.ts == t) = true := by
          rcases List.any_eq_true.mp hany with ⟨r2, hr2, hkey⟩
          rcases List.mem_cons.mp hr2 with h | h
          · exact absurd (h ▸ hkey) (by simp [hk])
          · exact List.any_eq_true.mpr ⟨r2, h, hkey⟩
        simp only [List.map_cons, List.filter_cons, if_neg hk]
        exact ih hwf.2 hany2
  · rw [if_neg hany]
    rw [List.filter_append]
    have h0 : db.filter (fun r => r.baby_id == b && r.ts == t) = [] := by
      rw [List.filter_eq_nil_iff]
      intro r hr hk
      exact hany (List.any_eq_true.mpr ⟨r, hr, hk⟩)
    rw [h0]
    simp

/-- Any row of the upserted table carrying the upserted key is the upserted
row itself (the upsert replaced all three of its flags). -/
theorem upsert_key_row (db : EntriesDB) (b t : Int) (m p q : Bool) :
    ∀ r ∈ upsert_entry db b t m p q, r.baby_id = b → r.ts = t →
      r = ⟨b, t, m, p, q⟩ := by
  intro r hr h1 h2
  rw [upsert_entry] at hr
  by_cases hany : db.any (fun r => r.baby_id == b && r.ts == t) = true
  · rw [if_pos hany, List.mem_map] at hr
    obtain ⟨r0, hr0, hre⟩ := hr
    by_cases hk : (r0.baby_id == b && r0.ts == t) = true
    · rw [if_pos hk] at hre
      have hrk : r0.baby_id = b ∧ r0.ts = t := by simpa using hk
      rw [← hre]
      cases r0
      simp_all
    · rw [if_neg hk] at hre
      exact absurd (show (r0.baby_id == b && r0.ts == t) = true by
        rw [hre]; simp [h1, h2]) hk
  · rw [if_neg hany, List.mem_append] at hr
    rcases hr with h | h
    · exact absurd (List.any_eq_true.mpr
        ⟨r, h, by simp [h1, h2]⟩) hany
    · simpa using h

/-- Repeating an identical upsert leaves the table unchanged. -/
theorem upsert_idem (db : EntriesDB) (b t : Int) (m p q : Bool) :
    upsert_entry (upsert_entry db b t m p q) b t m p q
      = upsert_entry db b t m p q := by
  conv_lhs => rw [upsert_entry]
  rw [if_pos (upsert_any_key db b t m p q)]
  refine (List.map_congr_left ?_).trans (List.map_id _)
  intro r hr
  by_cases hk : (r.baby_id == b && r.ts == t) = true
  · have hrk : r.baby_id = b ∧ r.ts = t := by simpa using hk
    have hre : r = ⟨b, t, m, p, q⟩ :=
      upsert_key_row db b t m p q r hr hrk.1 hrk.2
    subst hre
    simp
  · rw [if_neg hk, id_eq]

/-- C2: an upsert followed by a covering range fetch returns a single row
with exactly the upserted flags at that timestamp; the upsert replaces all
three flags of any row with the same (baby_id, ts) key; and repeating the
identical upsert leaves the table unchanged. -/
theorem upsert_fetch_spec (db : EntriesDB) (b t s e : Int) (m p q : Bool)
    (hwf : EntriesWF db) (hs : s ≤ t) (he : t ≤ e) :
    (fetch_entries (upsert_entry db b t m p q) b s e).rows.filter
        (fun fr => fr.ts == t) = [deriveRow ⟨b, t, m, p, q⟩] ∧
    upsert_entry (upsert_entry db b t m p q) b t m p q
      = upsert_entry db b t m p q ∧
    ∀ r ∈ upsert_entry db b t m p q, r.baby_id = b → r.ts = t →
      r = ⟨b, t, m, p, q⟩ := by
  refine ⟨?_, upsert_idem db b t m p q, ?_⟩
  · apply List.perm_singleton.mp
    have h1 := (fetch_rows_perm (upsert_entry db b t m p q) b s e).filter
      (fun fr => fr.ts == t)
    refine h1.trans ?_
    rw [List.filter_map]
    have h2 : ((upsert_entry db b t m p q).filter (inRange b s e)).filter
        ((fun fr => fr.ts == t) ∘ deriveRow)
        = (upsert_entry db b t m p q).filter (fun r => r.baby_id == b && r.ts == t) := by
      rw [List.filter_filter]
      apply List.filter_congr
      intro r _
      by_cases h1' : r.baby_id = b <;> by_cases h2' : r.ts = t
      · subst h2'
        simp [inRange, deriveRow, h1', hs, he]
      · simp [inRange, deriveRow, h1', h2']
      · simp [inRange, deriveRow, h1', h2']
      · simp [inRange, deriveRow, h1', h2']
    rw [h2, upsert_filter_key db b t m p q hwf]
    simp
  · intro r hr h1 h2
    have hmem : r ∈ (upsert_entry db b t m p q).filter
        (fun r => r.baby_id == b && r.ts == t) :=
      List.mem_filter.mpr ⟨hr, by simp [h1, h2]⟩
    rw [upsert_filter_key db b t m p q hwf] at hmem
    simpa using hmem

/-- Witness for C2 at a concrete database. -/
theorem upsert_fetch_spec_witness :
    EntriesWF [⟨1, 50, false, false, false⟩] ∧
    (fetch_entries (upsert_entry [⟨1, 50, false, false, false⟩] 1 100 true false true)
        1 0 200).rows.filter (fun fr => fr.ts == 100)
      = [deriveRow ⟨1, 100, true, false, true⟩] :=
  ⟨List.pairwise_singleton _ _,
   (upsert_fetch_spec [⟨1, 50, false, false, false⟩] 1 100 0 200 true false true
      (List.pairwise_singleton _ _) (by decide) (by decide)).1⟩

/-- C4: delete_day removes exactly the baby's entries with timestamp in the
closed interval [D 00:00:00, D 23:59:59] — including rows at exactly
23:59:59 — removes no row outside it, and returns the number of rows
removed. -/
theorem delete_day_spec (db : EntriesDB) (b day : Int) :
    ((delete_day db b day).1 = db.filter (fun r =>
      decide ¬(r.baby_id = b ∧ dayTime day 0 0 0 ≤ r.ts
        ∧ r.ts ≤ dayTime day 23 59 59))) ∧
    ((delete_day db b day).2 = (db.filter (fun r =>
      decide (r.baby_id = b ∧ dayTime day 0 0 0 ≤ r.ts
        ∧ r.ts ≤ dayTime day 23 59 59))).length) ∧
    (∀ r ∈ db, r.baby_id = b → dayTime day 0 0 0 ≤ r.ts →
      r.ts ≤ dayTime day 23 59 59 → r ∉ (delete_day db b day).1) ∧
    (∀ r ∈ db, ¬(r.baby_id = b ∧ dayTime day 0 0 0 ≤ r.ts
        ∧ r.ts ≤ dayTime day 23 59 59) → r ∈ (delete_day db b day).1) := by
  have hpt : ∀ r : Entry,
      (r.baby_id == b && decide (dayTime day 0 0 0 ≤ r.ts)
        && decide (r.ts ≤ dayTime day 23 59 59))
      = decide (r.baby_id = b ∧ dayTime day 0 0 0 ≤ r.ts
        ∧ r.ts ≤ dayTime day 23 59 59) := by
    intro r
    by_cases h1 : r.baby_id = b <;>
      by_cases h2 : dayTime day 0 0 0 ≤ r.ts <;>
        by_cases h3 : r.ts ≤ dayTime day 23 59 59 <;>
          simp [h1, h2, h3]
  refine ⟨?_, ?_, ?_, ?_⟩
  · simp only [delete_day]
    apply List.filter_congr
    intro r _
    rw [decide_not, hpt r]
  · simp only [delete_day]
    congr 1
    exact List.filter_congr fun r _ => hpt r
  · intro r hr h1 h2 h3 hmem
    simp only [delete_day, List.mem_filter] at hmem
    rw [hpt r] at hmem
    simp only [Bool.not_eq_true', decide_eq_false_iff_not] at hmem
    exact hmem.2 ⟨h1, h2, h3⟩
  · intro r hr h
    simp only [delete_day, List.mem_filter]
    refine ⟨hr, ?_⟩
    rw [hpt r]
    simp only [Bool.not_eq_true', decide_eq_false_iff_not]
    exact h

/-- Witness for C4: a row at exactly 23:59:59 of the day is removed. -/
theorem delete_day_spec_witness :
    (⟨1, dayTime 0 23 59 59, true, false, false⟩ : Entry)
      ∉ (delete_day [⟨1, dayTime 0 23 59 59, true, false, false⟩,
                     ⟨1, dayTime 1 0 0 0, true, false, false⟩] 1 0).1 :=
  (delete_day_spec [⟨1, dayTime 0 23 59 59, true, false, false⟩,
      ⟨1, dayTime 1 0 0 0, true, false, false⟩] 1 0).2.2.1
    ⟨1, dayTime 0 23 59 59, true, false, false⟩ (by simp)
    rfl (by decide) (by decide)

/-- C10: with no stored entries for the baby the fetch returns an empty
table with exactly the four columns ts, milk, pee, poop, while every
non-empty result additionally carries the derived date and hour columns. -/
theorem fetch_entries_shape_spec (db : EntriesDB) (b s e : Int) :
    ((∀ r ∈ db, r.baby_id ≠ b) →
      fetch_entries db b s e = ⟨["ts", "milk", "pee", "poop"], []⟩) ∧
    ((fetch_entries db b s e).rows ≠ [] →
      (fetch_entries db b s e).cols
        = ["ts", "milk", "pee", "poop", "date", "hour"]) := by
  constructor
  · intro h
    have hfil : db.filter (fun r => r.baby_id == b) = [] := by
      rw [List.filter_eq_nil_iff]
      intro r hr
      simpa using h r hr
    rw [fetch_entries, hfil]
    rfl
  · intro h
    rw [fetch_entries] at h ⊢
    by_cases hemp :
        (List.insertionSort entryLe (db.filter (fun r => r.baby_id == b))).isEmpty
    · rw [if_pos hemp] at h
      exact absurd rfl h
    · rw [if_neg hemp]

/-- Witness for C10: both shapes at concrete databases. -/
theorem fetch_entries_shape_spec_witness :
    fetch_entries [] 1 0 10 = ⟨["ts", "milk", "pee", "poop"], []⟩ ∧
    (fetch_entries [⟨1, 5, true, true, true⟩] 1 0 10).cols
      = ["ts", "milk", "pee", "poop", "date", "hour"] :=
  ⟨(fetch_entries_shape_spec [] 1 0 10).1 (fun r hr => absurd hr (List.not_mem_nil r)),
   (fetch_entries_shape_spec [⟨1, 5, true, true, true⟩] 1 0 10).2 (by decide)⟩

/-- The SQL MAX is NULL exactly on an empty set of rows. -/
theorem maxTs_eq_none_iff (l : List Entry) : maxTs l = none ↔ l = [] := by
  cases l with
  | nil => simp [maxTs]
  | cons r rest =>
    simp only [maxTs]
    cases maxTs rest <;> simp

/-- The SQL MAX value is attained by a row and bounds every row. -/
theorem maxTs_spec (l : List Entry) : ∀ t : Int, maxTs l = some t →
    (∃ r ∈ l, r.ts = t) ∧ ∀ r ∈ l, r.ts ≤ t := by
  induction l with
  | nil => intro t h; simp [maxTs] at h
  | cons r rest ih =>
    intro t h
    simp only [maxTs] at h
    cases hm : maxTs rest with
    | none =>
      rw [hm] at h
      have hrest : rest = [] := (maxTs_eq_none_iff rest).mp hm
      subst hrest
      have ht : r.ts = t := by simpa using h
      refine ⟨⟨r, by simp, ht⟩, ?_⟩
      intro r1 hr1
      rw [show r1 = r by simpa using hr1, ht]
    | some t0 =>
      rw [hm] at h
      have ht : t = max r.ts t0 := by simpa using h.symm
      obtain ⟨⟨r0, hr0, hr0t⟩, hall⟩ := ih t0 hm
      constructor
      · rcases le_total t0 r.ts with hle | hle
        · exact ⟨r, by simp, by rw [ht, max_eq_left hle]⟩
        · exact ⟨r0, by simp [hr0], by rw [hr0t, ht, max_eq_right hle]⟩
      · intro r1 hr1
        rcases List.mem_cons.mp hr1 with h1 | h1
        · rw [h1, ht]
          exact le_max_left _ _
        · exact le_trans (hall r1 h1) (ht ▸ le_max_right _ _)

/-- One component of the latest-per-event query, characterised over the
unfiltered table. -/
theorem latest_component_prop (db : EntriesDB) (b : Int) (f : Entry → Bool) :
    (maxTs (db.filter (fun r => r.baby_id == b && f r)) = none ↔
      ∀ r ∈ db, r.baby_id = b → f r = false) ∧
    ∀ t, maxTs (db.filter (fun r => r.baby_id == b && f r)) = some t →
      (∃ r ∈ db, r.baby_id = b ∧ f r = true ∧ r.ts = t) ∧
      ∀ r ∈ db, r.baby_id = b → f r = true → r.ts ≤ t := by
  constructor
  · rw [maxTs_eq_none_iff, List.filter_eq_nil_iff]
    constructor
    · intro hall r hr hb
      have := hall r hr
      simpa [hb] using this
    · intro hall r hr
      by_cases hb : r.baby_id = b
      · simp [hb, hall r hr hb]
      · simp [hb]
  · intro t ht
    obtain ⟨⟨r0, hr0, hr0t⟩, hall⟩ := maxTs_spec _ t ht
    rw [List.mem_filter] at hr0
    have hsplit : r0.baby_id = b ∧ f r0 = true := by simpa using hr0.2
    refine ⟨⟨r0, hr0.1, hsplit.1, hsplit.2, hr0t⟩, ?_⟩
    intro r hr hb hf
    exact hall r (List.mem_filter.mpr ⟨hr, by simp [hb, hf]⟩)

/-- C5: last_milk, last_pee and last_poop are computed independently per
event type: each is the maximum timestamp among the baby's rows where the
corresponding flag is set, and is NULL when no such row exists. -/
theorem latest_timestamp_per_event_spec (db : EntriesDB) (b : Int) :
    ((latest_timestamp_per_event db b).1 = none ↔
      ∀ r ∈ db, r.baby_id = b → r.milk = false) ∧
    (∀ t, (latest_timestamp_per_event db b).1 = some t →
      (∃ r ∈ db, r.baby_id = b ∧ r.milk = true ∧ r.ts = t) ∧
      ∀ r ∈ db, r.baby_id = b → r.milk = true → r.ts ≤ t) ∧
    ((latest_timestamp_per_event db b).2.1 = none ↔
      ∀ r ∈ db, r.baby_id = b → r.pee = false) ∧
    (∀ t, (latest_timestamp_per_event db b).2.1 = some t →
      (∃ r ∈ db, r.baby_id = b ∧ r.pee = true ∧ r.ts = t) ∧
      ∀ r ∈ db, r.baby_id = b → r.pee = true → r.ts ≤ t) ∧
    ((latest_timestamp_per_event db b).2.2 = none ↔
      ∀ r ∈ db, r.baby_id = b → r.poop = false) ∧
    (∀ t, (latest_timestamp_per_event db b).2.2 = some t →
      (∃ r ∈ db, r.baby_id = b ∧ r.poop = true ∧ r.ts = t) ∧
      ∀ r ∈ db, r.baby_id = b → r.poop = true → r.ts ≤ t) :=
  ⟨(latest_component_prop db b (fun r => r.milk)).1,
   (latest_component_prop db b (fun r => r.milk)).2,
   (latest_component_prop db b (fun r => r.pee)).1,
   (latest_component_prop db b (fun r => r.pee)).2,
   (latest_component_prop db b (fun r => r.poop)).1,
   (latest_component_prop db b (fun r => r.poop)).2⟩

/-- Witness for C5 on a table whose most recent row has no milk flag. -/
theorem latest_timestamp_per_event_spec_witness :
    (∃ r ∈ ([⟨1, 10, true, false, true⟩, ⟨1, 20, false, true, true⟩] : EntriesDB),
      r.baby_id = 1 ∧ r.milk = true ∧ r.ts = 10) ∧
    ∀ r ∈ ([⟨1, 10, true, false, true⟩, ⟨1, 20, false, true, true⟩] : EntriesDB),
      r.baby_id = 1 → r.milk = true → r.ts ≤ 10 :=
  (latest_timestamp_per_event_spec
    [⟨1, 10, true, false, true⟩, ⟨1, 20, false, true, true⟩] 1).2.1 10 (by decide)

/-- The melt-then-filter pipeline selects, for one event kind, exactly the
timestamps of the entries whose corresponding flag is set. -/
theorem meltLong_filter (df : List Entry) (k : EventKind) :
    ((meltLong df).filter (fun lr => lr.value && decide (lr.event = k))).map
        (fun lr => lr.ts)
      = (df.filter (flagOf k)).map (fun r => r.ts) := by
  cases k <;>
    simp [meltLong, flagOf, List.filter_map, Function.comp_def] <;> rfl

/-- C6: the average interval for an event kind is the arithmetic mean of
the consecutive timestamp differences of the qualifying rows taken in
ascending timestamp order, and is "not available" (none) when fewer than
two qualifying rows exist. -/
theorem average_interval_spec (df : List Entry) (k : EventKind) (l : List Int)
    (hperm : l.Perm ((df.filter (flagOf k)).map (fun r => r.ts)))
    (hsort : l.Sorted (· ≤ ·)) :
    average_interval df k =
      if l.length < 2 then none
      else some (((diffs l).map (fun d => (d : Rat))).sum
        / ((diffs l).length : Rat)) := by
  have hl : l = List.insertionSort (· ≤ ·)
      (((meltLong df).filter (fun lr => lr.value && decide (lr.event = k))).map
        (fun lr => lr.ts)) := by
    rw [meltLong_filter]
    refine List.eq_of_perm_of_sorted ?_ hsort (List.sorted_insertionSort _ _)
    exact hperm.trans (List.perm_insertionSort _ _).symm
  simp only [average_interval]
  rw [← hl]
  by_cases h2 : 2 ≤ l.length
  · rw [if_pos h2, if_neg (by omega)]
  · rw [if_neg h2, if_pos (by omega)]

/-- Witness for C6: milk events at 08:00, 12:00 and 16:00 average to four
hours, and a single qualifying event gives none. -/
theorem average_interval_spec_witness :
    average_interval [⟨1, 28800, true, false, false⟩, ⟨1, 43200, true, false, false⟩,
      ⟨1, 57600, true, false, false⟩] EventKind.milk = some ((14400 : Rat)) ∧
    average_interval [⟨1, 28800, true, false, false⟩] EventKind.milk = none := by
  constructor
  · have he : (([⟨1, 28800, true, false, false⟩, ⟨1, 43200, true, false, false⟩,
        ⟨1, 57600, true, false, false⟩] : EntriesDB).filter
          (flagOf EventKind.milk)).map (fun r => r.ts)
        = [28800, 43200, 57600] := by decide
    have h := average_interval_spec [⟨1, 28800, true, false, false⟩,
      ⟨1, 43200, true, false, false⟩, ⟨1, 57600, true, false, false⟩]
      EventKind.milk [28800, 43200, 57600]
      (by rw [he]) (by norm_num [List.sorted_cons])
    rw [h]
    norm_num [diffs]
  · have he : (([⟨1, 28800, true, false, false⟩] : EntriesDB).filter
          (flagOf EventKind.milk)).map (fun r => r.ts) = [28800] := by decide
    have h := average_interval_spec [⟨1, 28800, true, false, false⟩]
      EventKind.milk [28800] (by rw [he]) (by norm_num [List.sorted_cons])
    rw [h]
    norm_num

/-- C7: get_or_create called twice with the same name returns the same id
both times and does not create a duplicate row; it returns the existing id
on a case-sensitive exact match of the trimmed name and otherwise inserts
and returns a fresh id. -/
theorem get_or_create_baby_twice_spec (st : BabyDB) (name : String)
    (i : Int) (st1 : BabyDB)
    (h : get_or_create_baby st name = (Except.ok i, st1)) :
    get_or_create_baby st1 name = (Except.ok i, st1) ∧
    (∀ r0, st.babies.find? (fun r => r.2 == strip name) = some r0 →
      i = r0.1 ∧ st1 = st) ∧
    (st.babies.find? (fun r => r.2 == strip name) = none →
      st1.babies = st.babies ++ [(st.nextId, strip name)] ∧ i = st.nextId) := by
  rw [get_or_create_baby] at h
  by_cases hemp : strip name = ""
  · rw [if_pos hemp] at h
    exact absurd (congrArg Prod.fst h) (by simp)
  · rw [if_neg hemp] at h
    cases hfind : st.babies.find? (fun r => r.2 == strip name) with
    | some r0 =>
      rw [hfind] at h
      simp only [Prod.mk.injEq, Except.ok.injEq] at h
      obtain ⟨h1, h2⟩ := h
      subst h2
      refine ⟨?_, ?_, ?_⟩
      · rw [get_or_create_baby, if_neg hemp, hfind]
        show (Except.ok r0.1, st) = (Except.ok i, st)
        rw [h1]
      · intro r0' hr0'
        refine ⟨?_, rfl⟩
        injection hr0' with h'
        rw [← h']
        exact h1.symm
      · intro hnone
        exact absurd hnone (by simp)
    | none =>
      rw [hfind] at h
      simp only [Prod.mk.injEq, Except.ok.injEq] at h
      obtain ⟨h1, h2⟩ := h
      subst h2
      refine ⟨?_, ?_, fun _ => ⟨rfl, h1.symm⟩⟩
      · rw [get_or_create_baby, if_neg hemp]
        have hfind2 : (BabyDB.mk (st.babies ++ [(st.nextId, strip name)])
              (st.nextId + 1)).babies.find? (fun r => r.2 == strip name)
            = some (st.nextId, strip name) := by
          show (st.babies ++ [(st.nextId, strip name)]).find? _ = _
          rw [List.find?_append, hfind]
          simp
        rw [hfind2]
        show (Except.ok st.nextId,
            BabyDB.mk (st.babies ++ [(st.nextId, strip name)]) (st.nextId + 1))
          = (Except.ok i,
            BabyDB.mk (st.babies ++ [(st.nextId, strip name)]) (st.nextId + 1))
        rw [h1]
      · intro r0' hr0'
        exact absurd hr0'.symm (by simp)

/-- Witness for C7: 'Alice' twice from an empty registry. -/
theorem get_or_create_baby_twice_spec_witness :
    get_or_create_baby ⟨[(1, "Alice")], 2⟩ "Alice"
      = (Except.ok 1, ⟨[(1, "Alice")], 2⟩) :=
  (get_or_create_baby_twice_spec ⟨[], 1⟩ "Alice" 1 ⟨[(1, "Alice")], 2⟩ (by rfl)).1

/-- C8: get_or_create fails exactly when the name is empty after trimming,
and in that case the stored table is unchanged. -/
theorem get_or_create_baby_error_spec (st : BabyDB) (name : String) :
    ((∃ msg, (get_or_create_baby st name).1 = Except.error msg) ↔
      strip name = "") ∧
    (strip name = "" → (get_or_create_baby st name).2 = st) := by
  by_cases hemp : strip name = ""
  · refine ⟨?_, fun _ => by simp [get_or_create_baby, hemp]⟩
    simp [get_or_create_baby, hemp]
  · refine ⟨?_, fun h => absurd h hemp⟩
    simp only [get_or_create_baby, if_neg hemp]
    constructor
    · rintro ⟨msg, hm⟩
      cases hfind : st.babies.find? (fun r => r.2 == strip name) <;>
        rw [hfind] at hm <;> simp at hm
    · intro h
      exact absurd h hemp

/-- Witness for C8: a whitespace-only name leaves the table unchanged. -/
theorem get_or_create_baby_error_spec_witness :
    (get_or_create_baby ⟨[(1, "Bob")], 2⟩ "   ").2 = ⟨[(1, "Bob")], 2⟩ :=
  (get_or_create_baby_error_spec ⟨[(1, "Bob")], 2⟩ "   ").2 rfl

/-- Under a nodup primary key, the rows keyed by one id are zero or one,
with one exactly when such a row exists. -/
theorem filter_key_nodup {α : Type} (l : List (Int × α)) (b : Int)
    (h : (l.map Prod.fst).Nodup) :
    ((l.filter (fun r => r.1 == b)).length = 0 ∧ ∀ r ∈ l, r.1 ≠ b) ∨
    ((l.filter (fun r => r.1 == b)).length = 1 ∧ ∃ r ∈ l, r.1 = b) := by
  induction l with
  | nil => left; simp
  | cons r rest ih =>
    rw [List.map_cons, List.nodup_cons] at h
    by_cases hk : r.1 = b
    · right
      have hrest : rest.filter (fun r2 => r2.1 == b) = [] := by
        rw [List.filter_eq_nil_iff]
        intro r2 hr2 hk2
        exact h.1 (by
          rw [hk, ← show r2.1 = b by simpa using hk2]
          exact List.mem_map_of_mem Prod.fst hr2)
      refine ⟨?_, ⟨r, by simp, hk⟩⟩
      simp [List.filter_cons, hk, hrest]
    · rcases ih h.2 with ⟨h0, hall⟩ | ⟨h1, hex⟩
      · left
        refine ⟨by simp [List.filter_cons, hk, h0], ?_⟩
        intro r2 hr2
        rcases List.mem_cons.mp hr2 with he | he
        · rw [he]; exact hk
        · exact hall r2 he
      · right
        refine ⟨by simp [List.filter_cons, hk, h1], ?_⟩
        obtain ⟨r0, hr0, hr0b⟩ := hex
        exact ⟨r0, List.mem_cons_of_mem r hr0, hr0b⟩

/-- C9: deleting a baby removes its row and cascades to its entries and
weights, removing nothing else; afterwards the range fetch and the weight
series for that id are empty, and the returned count of deleted baby rows
is 0 or 1 (1 exactly when the baby existed). -/
theorem delete_baby_cascade_spec (db : DB) (b : Int)
    (hids : (db.babies.map Prod.fst).Nodup) :
    (∀ s e, (fetch_entries (delete_baby db b).1.entries b s e).rows = []) ∧
    weight_series (delete_baby db b).1 b = [] ∧
    ((delete_baby db b).2 = 0 ∨ (delete_baby db b).2 = 1) ∧
    ((delete_baby db b).2 = 1 ↔ ∃ r ∈ db.babies, r.1 = b) ∧
    (∀ r, r ∈ (delete_baby db b).1.babies ↔ r ∈ db.babies ∧ r.1 ≠ b) ∧
    (∀ r, r ∈ (delete_baby db b).1.entries ↔ r ∈ db.entries ∧ r.baby_id ≠ b) ∧
    (∀ w, w ∈ (delete_baby db b).1.weights ↔ w ∈ db.weights ∧ w.baby_id ≠ b) := by
  refine ⟨?_, ?_, ?_, ?_, ?_, ?_, ?_⟩
  · intro s e
    have hent : (delete_baby db b).1.entries.filter (fun r => r.baby_id == b)
        = [] := by
      rw [List.filter_eq_nil_iff]
      intro r hr
      simp only [delete_baby, List.mem_filter] at hr
      simpa using hr.2
    simp [fetch_entries, hent, List.insertionSort]
  · have hw : (delete_baby db b).1.weights.filter (fun w => w.baby_id == b)
        = [] := by
      rw [List.filter_eq_nil_iff]
      intro w hw
      simp only [delete_baby, List.mem_filter] at hw
      simpa using hw.2
    simp [weight_series, hw, List.insertionSort]
  · rcases filter_key_nodup db.babies b hids with ⟨h0, _⟩ | ⟨h1, _⟩
    · exact Or.inl h0
    · exact Or.inr h1
  · rcases filter_key_nodup db.babies b hids with ⟨h0, hall⟩ | ⟨h1, hex⟩
    · constructor
      · intro h
        rw [show (delete_baby db b).2
            = (db.babies.filter (fun r => r.1 == b)).length from rfl, h0] at h
        exact absurd h (by omega)
      · rintro ⟨r, hr, hrb⟩
        exact absurd hrb (hall r hr)
    · exact ⟨fun _ => hex, fun _ => h1⟩
  · intro r
    simp only [delete_baby, List.mem_filter]
    constructor
    · rintro ⟨hr, hb⟩
      exact ⟨hr, by simpa using hb⟩
    · rintro ⟨hr, hb⟩
      exact ⟨hr, by simpa using hb⟩
  · intro r
    simp only [delete_baby, List.mem_filter]
    constructor
    · rintro ⟨hr, hb⟩
      exact ⟨hr, by simpa using hb⟩
    · rintro ⟨hr, hb⟩
      exact ⟨hr, by simpa using hb⟩
  · intro w
    simp only [delete_baby, List.mem_filter]
    constructor
    · rintro ⟨hw, hb⟩
      exact ⟨hw, by simpa using hb⟩
    · rintro ⟨hw, hb⟩
      exact ⟨hw, by simpa using hb⟩

/-- Witness for C9 on a concrete two-baby database. -/
theorem delete_baby_cascade_spec_witness :
    (fetch_entries (delete_baby ⟨[(1, "A"), (2, "B")],
        [⟨1, 5, true, false, false⟩], [⟨1, 0, 7⟩]⟩ 1).1.entries 1 0 10).rows = [] ∧
    (delete_baby ⟨[(1, "A"), (2, "B")],
        [⟨1, 5, true, false, false⟩], [⟨1, 0, 7⟩]⟩ 1).2 = 1 :=
  ⟨(delete_baby_cascade_spec ⟨[(1, "A"), (2, "B")],
      [⟨1, 5, true, false, false⟩], [⟨1, 0, 7⟩]⟩ 1 (by decide)).1 0 10,
   (delete_baby_cascade_spec ⟨[(1, "A"), (2, "B")],
      [⟨1, 5, true, false, false⟩], [⟨1, 0, 7⟩]⟩ 1 (by decide)).2.2.2.1.mpr
     ⟨(1, "A"), by simp, rfl⟩⟩

end BabyData
